import Mathlib

/-!
Shallow embedding of `pdoc_post_prod.py` (class `ParseInfo` and class
`PdocPostProd`): a line-oriented rewriter that replaces `:param`, `:type`,
`:return`, `:rtype` and `:raises` docstring directives (lead character `:`
or `@`) by HTML markup.

Python strings become `List Char`; the mutable rewriter state
(`curr_parm_match`, `curr_return_desc`, the output stream) becomes an
explicit `PState`; `raise` becomes the `Except` error component, which
carries the state (in particular the output written so far) at the moment
of the raise, so that the `try/finally` of `PdocPostProd.parse` can be
modelled faithfully.
-/

namespace Pdoc

abbrev Chars := List Char

/-- The exception classes of the module (plus `ValueError` from
`ParseInfo.__init__`). -/
inductive PyError where
  | noTypeError
  | noParamError
  | paramTypeMismatch
  | doubleReturnError
  | valueError
deriving DecidableEq, Repr

/-- Constructor arguments of `PdocPostProd.__init__` (minus the streams). -/
structure Config where
  raise_errors : Bool := true
  warnings_on : Bool := false
  delimiter_char : Char := '@'
  force_type_spec : Bool := false
deriving DecidableEq, Repr

/-- Python `\s` for the characters relevant to `str.strip` / the blank-line
pattern. -/
def isPySpace (c : Char) : Bool :=
  c == ' ' || c == '\t' || c == '\n' || c == '\r' || c == '\x0b' || c == '\x0c'

/-- Python `str.lstrip()`. -/
def lstripL (l : Chars) : Chars := l.dropWhile isPySpace

/-- Python `str.rstrip()`. -/
def rstripL (l : Chars) : Chars := (l.reverse.dropWhile isPySpace).reverse

/-- Python `str.strip()`. -/
def stripL (l : Chars) : Chars := rstripL (lstripL l)

/-- Python `s.endswith(sfx)`. -/
def endsWith (l sfx : Chars) : Bool := sfx.isSuffixOf l

/-- Substring occurrence test (used only to state properties of outputs). -/
def occursIn (pat : Chars) (l : Chars) : Bool :=
  match l with
  | [] => pat.isEmpty
  | _ :: t => pat.isPrefixOf l || occursIn pat t

/-- `self.line_sep = '</br>'` in `ParseInfo.__init__`. -/
def line_sep : Chars := ['<', '/', 'b', 'r', '>']

/-- `line_blank_pat = re.compile(r'^[\s]*$')`: `search` succeeds exactly when
every character of the line is whitespace. -/
def isBlankLine (l : Chars) : Bool := l.all isPySpace

/-- Match a literal: `chopLit m r = some t` iff `r = m ++ t`. -/
def chopLit : Chars → Chars → Option Chars
  | [], r => some r
  | _ :: _, [] => none
  | c :: cs, d :: ds => if c = d then chopLit cs ds else none

/-- The effect of the trailing `(.*)$` of every directive pattern on the rest
of a `readlines` line: `.` does not match a newline and `$` also matches just
before a final newline, so a single trailing newline is dropped. -/
def chopNL (l : Chars) : Chars :=
  match l.getLast? with
  | some c => if c = '\n' then l.dropLast else l
  | none => l

/-- The leading `(^[ ]+)` of every directive pattern: one or more literal
spaces, captured, followed by the rest of the line. -/
def splitInd (line : Chars) : Option (Chars × Chars) :=
  let ind := line.takeWhile (fun c => c == ' ')
  let rest := line.dropWhile (fun c => c == ' ')
  if ind.isEmpty then none else some (ind, rest)

/-- `:param` / `@param` marker. -/
def paramMarker (d : Char) : Chars := d :: ['p', 'a', 'r', 'a', 'm']

/-- `:type` / `@type` marker. -/
def typeMarker (d : Char) : Chars := d :: ['t', 'y', 'p', 'e']

/-- `:return` / `@return` marker (the pattern adds an optional `s`). -/
def returnMarker (d : Char) : Chars := d :: ['r', 'e', 't', 'u', 'r', 'n']

/-- `:rtype` / `@rtype` marker. -/
def rtypeMarker (d : Char) : Chars := d :: ['r', 't', 'y', 'p', 'e']

/-- `:raise` / `@raise` marker (the pattern adds an optional `s` or `d`). -/
def raisesMarker (d : Char) : Chars := d :: ['r', 'a', 'i', 's', 'e']

/-- One optional character drawn from a class, `[… ]{0,1}` in the patterns. -/
def optCharIn (cs : Chars) (l : Chars) : Chars :=
  match l with
  | c :: t => if cs.contains c then t else l
  | [] => []

/-- The separator class `[:| ]{0,1}` of the return/rtype/raises patterns. -/
def sepChars : Chars := [':', '|', ' ']

/-- `param_pat` / `type_pat`: `(^[ ]+)MARKER([^:]*):(.*)$`, returning the
captured (indent, name, description). -/
def matchParamType (marker : Chars) (line : Chars) : Option (Chars × Chars × Chars) :=
  match splitInd line with
  | none => none
  | some (ind, rest) =>
    match chopLit marker rest with
    | none => none
    | some r1 =>
      match r1.dropWhile (fun c => !(c == ':')) with
      | ':' :: r2 => some (ind, r1.takeWhile (fun c => !(c == ':')), chopNL r2)
      | _ => none

/-- `return_pat` / `rtype_pat` / `raises_pat`:
`(^[ ]+)MARKER[letters]{0,1}[:| ]{0,1}(.*)$`, returning the captured
(indent, description). -/
def matchKeyTail (marker : Chars) (letters : Chars) (line : Chars) : Option (Chars × Chars) :=
  match splitInd line with
  | none => none
  | some (ind, rest) =>
    match chopLit marker rest with
    | none => none
    | some r1 => some (ind, chopNL (optCharIn sepChars (optCharIn letters r1)))

/-- `ParseInfo`: the `parm_markers` list built by `ParseInfo.__init__`. -/
structure ParseInfo where
  parm_markers : List Chars
deriving DecidableEq, Repr

/-- `ParseInfo.__init__`: rejects every delimiter other than `:` and `@` with
a `ValueError`, otherwise records the five marker strings for the chosen
delimiter. -/
def ParseInfo.init (delimiter_char : Char) : Except PyError ParseInfo :=
  if ¬ (delimiter_char = ':' ∨ delimiter_char = '@') then
    .error .valueError
  else
    .ok ⟨[paramMarker delimiter_char, typeMarker delimiter_char,
          returnMarker delimiter_char, rtypeMarker delimiter_char,
          raisesMarker delimiter_char ++ ['s']]⟩

/-- The mutable state of one `PdocPostProd.parse` call: `curr_parm_match`,
`curr_return_desc`, and the text written to `out_fd` so far. -/
structure PState where
  parm : Option (Chars × Chars)
  ret : Option Chars
  out : Chars
deriving DecidableEq, Repr

/-- Initial state at the top of `parse`. -/
def initState : PState := ⟨none, none, []⟩

/-- An error abandons the parse; it carries the state (with all output
already written) at the moment of the raise. -/
abbrev Err := PState × PyError

/-- `PdocPostProd.error_notify`: raise in raise mode, otherwise continue
(warnings go to stderr and do not touch the output stream). -/
def error_notify (cfg : Config) (st : PState) (e : PyError) : Except Err PState :=
  if cfg.raise_errors then .error (st, e) else .ok st

/-- `PdocPostProd.finish_parameter_spec`. -/
def finish_parameter_spec (cfg : Config) (type_found : Bool) (st : PState) :
    Except Err PState :=
  match st.parm with
  | none => .ok st
  | some (_, parm_desc) =>
    match (if cfg.force_type_spec && !type_found then
             error_notify cfg st .noTypeError
           else .ok st) with
    | .error e => .error e
    | .ok st1 =>
      let st2 := if endsWith parm_desc line_sep then st1
                 else { st1 with out := st1.out ++ line_sep }
      .ok { st2 with parm := none }

/-- `PdocPostProd.finish_return_spec` (never raises). -/
def finish_return_spec (st : PState) : PState :=
  match st.ret with
  | none => st
  | some desc =>
    let st1 := if endsWith desc line_sep then st
               else { st with out := st.out ++ line_sep }
    { st1 with ret := none }

/-- `PdocPostProd.check_param_spec`. -/
def check_param_spec (cfg : Config) (line : Chars) (st : PState) :
    Except Err (Bool × PState) :=
  match matchParamType (paramMarker cfg.delimiter_char) line with
  | none => .ok (false, st)
  | some (ind, nameRaw, descRaw) =>
    let opener : PState → Except Err (Bool × PState) := fun st =>
      let parm_name := stripL nameRaw
      let parm_desc := stripL descRaw
      .ok (true, { st with
                    parm := some (parm_name, parm_desc),
                    out := st.out ++ ind ++ ['<', 'b', '>'] ++ parm_name
                           ++ ['<', '/', 'b', '>', ' '] })
    match st.parm with
    | none => opener st
    | some _ =>
      match (if cfg.force_type_spec then error_notify cfg st .noTypeError
             else .ok st) with
      | .error e => .error e
      | .ok st1 =>
        match finish_parameter_spec cfg false st1 with
        | .error e => .error e
        | .ok st2 => opener { st2 with parm := none }

/-- `PdocPostProd.check_type_spec`. -/
def check_type_spec (cfg : Config) (line : Chars) (st : PState) :
    Except Err (Bool × PState) :=
  match matchParamType (typeMarker cfg.delimiter_char) line, st.parm with
  | none, _ => .ok (false, st)
  | some _, none =>
    match error_notify cfg st .noParamError with
    | .error e => .error e
    | .ok st1 => .ok (false, st1)
  | some (_, tnameRaw, tdescRaw), some (parm_name, parm_desc) =>
    let type_name := stripL tnameRaw
    let type_desc := stripL tdescRaw
    if type_name = parm_name then
      let st1 := { st with
                    out := st.out ++ ['(', '<', 'b', '>', '<', '/', 'i', '>']
                           ++ type_desc
                           ++ ['<', '/', 'i', '>', '<', '/', 'b', '>', ')', ':', ' ']
                           ++ parm_desc }
      match finish_parameter_spec cfg true st1 with
      | .error e => .error e
      | .ok st2 => .ok (true, { st2 with parm := none })
    else
      match error_notify cfg st .paramTypeMismatch with
      | .error e => .error e
      | .ok st1 => .ok (false, st1)

/-- `PdocPostProd.check_return_spec`. -/
def check_return_spec (cfg : Config) (line : Chars) (st : PState) :
    Except Err (Bool × PState) :=
  match matchKeyTail (returnMarker cfg.delimiter_char) ['s'] line with
  | none => .ok (false, st)
  | some (ind, descRaw) =>
    match finish_parameter_spec cfg false st with
    | .error e => .error e
    | .ok st1 =>
      let afterDouble : Except Err PState :=
        match st1.ret with
        | none => .ok st1
        | some _ =>
          match error_notify cfg st1 .doubleReturnError with
          | .error e => .error e
          | .ok st2 => .ok (finish_return_spec st2)
      match afterDouble with
      | .error e => .error e
      | .ok st3 =>
        .ok (true, { st3 with
                      ret := some (stripL descRaw),
                      out := st3.out ++ ind
                             ++ ("<b>returns:</b> ".toList) })

/-- `PdocPostProd.check_rtype_spec`. -/
def check_rtype_spec (cfg : Config) (line : Chars) (st : PState) :
    Except Err (Bool × PState) :=
  match matchKeyTail (rtypeMarker cfg.delimiter_char) [] line with
  | none => .ok (false, st)
  | some (ind, descRaw) =>
    match finish_parameter_spec cfg false st with
    | .error e => .error e
    | .ok st1 =>
      .ok (true, { st1 with
                    out := st1.out ++ ind ++ ("<b>return type:</b> ".toList)
                           ++ stripL descRaw ++ line_sep })

/-- `PdocPostProd.check_raises_spec`. -/
def check_raises_spec (cfg : Config) (line : Chars) (st : PState) :
    Except Err (Bool × PState) :=
  match matchKeyTail (raisesMarker cfg.delimiter_char) ['s', '|', 'd'] line with
  | none => .ok (false, st)
  | some (ind, descRaw) =>
    match finish_parameter_spec cfg false st with
    | .error e => .error e
    | .ok st1 =>
      .ok (true, { st1 with
                    out := st1.out ++ ind ++ ("<b>raises:</b> ".toList)
                           ++ stripL descRaw ++ line_sep })

/-- The body of the scan loop of `PdocPostProd.parse` for one line: the five
checks in priority order, then continuation handling, then pass-through. -/
def process_line (cfg : Config) (line : Chars) (st : PState) : Except Err PState :=
  match check_param_spec cfg line st with
  | .error e => .error e
  | .ok (true, st) => .ok st
  | .ok (false, st) =>
  match check_type_spec cfg line st with
  | .error e => .error e
  | .ok (true, st) => .ok st
  | .ok (false, st) =>
  match check_return_spec cfg line st with
  | .error e => .error e
  | .ok (true, st) => .ok st
  | .ok (false, st) =>
  match check_rtype_spec cfg line st with
  | .error e => .error e
  | .ok (true, st) => .ok st
  | .ok (false, st) =>
  match check_raises_spec cfg line st with
  | .error e => .error e
  | .ok (true, st) => .ok st
  | .ok (false, st) =>
  match st.parm with
  | some (param_name, param_desc) =>
    .ok { st with parm := some (param_name, param_desc ++ ' ' :: line) }
  | none =>
  match st.ret with
  | some d => .ok { st with ret := some (d ++ ' ' :: stripL line) }
  | none =>
    if isBlankLine line then .ok st
    else .ok { st with
                out := st.out ++ line
                       ++ (if line.getLast? = some '\n' then [] else line_sep) }

/-- The scan loop of `PdocPostProd.parse` over all lines. -/
def scan_lines (cfg : Config) : List Chars → PState → Except Err PState
  | [], st => .ok st
  | l :: ls, st =>
    match process_line cfg l st with
    | .error e => .error e
    | .ok st1 => scan_lines cfg ls st1

/-- The `finally` block of `PdocPostProd.parse`: flush a still-open parameter
spec, or else a still-open return spec. -/
def finalize (cfg : Config) (st : PState) : Except Err PState :=
  match st.parm with
  | some (_, parm_desc) =>
    finish_parameter_spec cfg false { st with out := st.out ++ rstripL parm_desc }
  | none =>
    match st.ret with
    | some desc =>
      .ok (finish_return_spec { st with out := st.out ++ rstripL desc })
    | none => .ok st

/-- `PdocPostProd.parse` on a list of input lines: run the scan loop inside
`try`, run `finalize` on every exit path (an error raised by the `finally`
block itself replaces the original one, as in Python), and return the text
written to `out_fd` together with the escaping exception, if any. -/
def parse (cfg : Config) (lines : List Chars) : Chars × Option PyError :=
  match scan_lines cfg lines initState with
  | .ok st =>
    match finalize cfg st with
    | .ok st1 => (st1.out, none)
    | .error (st1, e1) => (st1.out, some e1)
  | .error (st, e) =>
    match finalize cfg st with
    | .ok st1 => (st1.out, some e)
    | .error (st1, e1) => (st1.out, some e1)

/-- `PdocPostProd.__init__`: the constructor builds the `ParseInfo` (which
may raise `ValueError`) and then runs `parse`. -/
def run (cfg : Config) (lines : List Chars) : Chars × Option PyError :=
  match ParseInfo.init cfg.delimiter_char with
  | .error e => ([], some e)
  | .ok _ => parse cfg lines

/-! Helper lemmas about the pattern matchers. -/

theorem chopLit_append (m r : Chars) : chopLit m (m ++ r) = some r := by
  induction m with
  | nil => rfl
  | cons c cs ih => simp [chopLit, ih]

theorem chopLit_eq_append {m r t : Chars} (h : chopLit m r = some t) : r = m ++ t := by
  induction m generalizing r with
  | nil =>
    simp only [chopLit, Option.some.injEq] at h
    simp [h]
  | cons c cs ih =>
    cases r with
    | nil => simp [chopLit] at h
    | cons d ds =>
      by_cases hc : c = d
      · subst hc
        simp only [chopLit, if_pos rfl] at h
        simpa using ih h
      · simp [chopLit, hc] at h

theorem takeWhile_middle (p : Char → Bool) (xs : Chars) (c : Char) (r : Chars)
    (h1 : ∀ a ∈ xs, p a = true) (h2 : p c = false) :
    (xs ++ c :: r).takeWhile p = xs := by
  induction xs with
  | nil => simp [List.takeWhile, h2]
  | cons x t ih =>
    have hx : p x = true := h1 x (by simp)
    simp [List.takeWhile, hx, ih fun a ha => h1 a (by simp [ha])]

theorem dropWhile_middle (p : Char → Bool) (xs : Chars) (c : Char) (r : Chars)
    (h1 : ∀ a ∈ xs, p a = true) (h2 : p c = false) :
    (xs ++ c :: r).dropWhile p = c :: r := by
  induction xs with
  | nil => simp [List.dropWhile, h2]
  | cons x t ih =>
    have hx : p x = true := h1 x (by simp)
    simp [List.dropWhile, hx, ih fun a ha => h1 a (by simp [ha])]

theorem splitInd_repl (k : Nat) (c : Char) (t : Chars) (hc : (c == ' ') = false) :
    splitInd (List.replicate (k + 1) ' ' ++ c :: t) =
      some (List.replicate (k + 1) ' ', c :: t) := by
  have hall : ∀ a ∈ List.replicate (k + 1) ' ', (a == ' ') = true := by
    intro a ha
    simp [List.eq_of_mem_replicate ha]
  simp [splitInd, takeWhile_middle _ _ _ _ hall hc, dropWhile_middle _ _ _ _ hall hc]

theorem chopNL_concat (l : Chars) : chopNL (l ++ ['\n']) = l := by
  simp [chopNL, List.getLast?_concat]

theorem stripL_cons_space (l : Chars) : stripL (' ' :: l) = stripL l := by
  simp [stripL, lstripL, List.dropWhile, isPySpace]

theorem delim_ne_space {δ : Char} (h : δ = ':' ∨ δ = '@') : (δ == ' ') = false := by
  rcases h with h | h <;> simp [h]

/-! Evaluation lemmas: the effect of `process_line` on lines of each
directive shape, and of `parse` on single-directive inputs. -/

theorem process_line_retline (r w f : Bool) (δ : Char) (hδ : (δ == ' ') = false)
    (k : Nat) (tail : Chars) (st : PState) (hp : st.parm = none) (hr : st.ret = none) :
    process_line ⟨r, w, δ, f⟩
      (List.replicate (k + 1) ' ' ++ δ :: ('r' :: 'e' :: 't' :: 'u' :: 'r' :: 'n' :: tail)) st =
    .ok ⟨none, some (stripL (chopNL (optCharIn sepChars (optCharIn ['s'] tail)))),
         st.out ++ List.replicate (k + 1) ' ' ++ "<b>returns:</b> ".toList⟩ := by
  have hsplit := splitInd_repl k δ ('r' :: 'e' :: 't' :: 'u' :: 'r' :: 'n' :: tail) hδ
  simp [process_line, check_param_spec, check_type_spec, check_return_spec,
        matchParamType, matchKeyTail, hsplit, paramMarker, typeMarker, returnMarker,
        chopLit, finish_parameter_spec, hp, hr]

theorem process_line_raisesline (r w f : Bool) (δ : Char) (hδ : (δ == ' ') = false)
    (k : Nat) (tail : Chars) (st : PState) (hp : st.parm = none) :
    process_line ⟨r, w, δ, f⟩
      (List.replicate (k + 1) ' ' ++ δ :: ('r' :: 'a' :: 'i' :: 's' :: 'e' :: tail)) st =
    .ok ⟨none, st.ret,
         st.out ++ List.replicate (k + 1) ' ' ++ "<b>raises:</b> ".toList
           ++ stripL (chopNL (optCharIn sepChars (optCharIn ['s', '|', 'd'] tail)))
           ++ line_sep⟩ := by
  have hsplit := splitInd_repl k δ ('r' :: 'a' :: 'i' :: 's' :: 'e' :: tail) hδ
  simp [process_line, check_param_spec, check_type_spec, check_return_spec,
        check_rtype_spec, check_raises_spec,
        matchParamType, matchKeyTail, hsplit, paramMarker, typeMarker, returnMarker,
        rtypeMarker, raisesMarker, chopLit, finish_parameter_spec, hp]

theorem finalize_ret_open (cfg : Config) (st : PState) (g : Chars)
    (hp : st.parm = none) (hr : st.ret = some g) :
    finalize cfg st =
      .ok ⟨none, none, st.out ++ rstripL g
            ++ (if endsWith g line_sep then [] else line_sep)⟩ := by
  simp [finalize, hp, hr, finish_return_spec]
  split <;> simp

theorem parse_single_retline (r w f : Bool) (δ : Char) (hδ : (δ == ' ') = false)
    (k : Nat) (tail : Chars) :
    parse ⟨r, w, δ, f⟩
      [List.replicate (k + 1) ' ' ++ δ :: ('r' :: 'e' :: 't' :: 'u' :: 'r' :: 'n' :: tail)] =
    (List.replicate (k + 1) ' ' ++ "<b>returns:</b> ".toList
      ++ rstripL (stripL (chopNL (optCharIn sepChars (optCharIn ['s'] tail))))
      ++ (if endsWith (stripL (chopNL (optCharIn sepChars (optCharIn ['s'] tail)))) line_sep
          then [] else line_sep), none) := by
  have h1 := process_line_retline r w f δ hδ k tail initState rfl rfl
  simp only [initState, List.nil_append] at h1
  simp only [parse, scan_lines, initState, h1]
  simp [finalize, finish_return_spec]
  split <;> simp

theorem parse_single_raisesline (r w f : Bool) (δ : Char) (hδ : (δ == ' ') = false)
    (k : Nat) (tail : Chars) :
    parse ⟨r, w, δ, f⟩
      [List.replicate (k + 1) ' ' ++ δ :: ('r' :: 'a' :: 'i' :: 's' :: 'e' :: tail)] =
    (List.replicate (k + 1) ' ' ++ "<b>raises:</b> ".toList
      ++ stripL (chopNL (optCharIn sepChars (optCharIn ['s', '|', 'd'] tail)))
      ++ line_sep, none) := by
  have h1 := process_line_raisesline r w f δ hδ k tail initState rfl
  simp only [initState, List.nil_append] at h1
  simp only [parse, scan_lines, initState, h1]
  simp [finalize]

theorem chopNL_cons_concat (c : Char) (l : Chars) :
    chopNL (c :: (l ++ ['\n'])) = c :: l := by
  rw [← List.cons_append, chopNL_concat]

/-! Input-line builders for the keyword-spelling variants accepted by
`return_pat` (`return` / `returns`, bare or with a colon) and by
`raises_pat` (`raise` / `raises` / `raised`). -/

/-- A line of the form `IND:return DESC`. -/
def retLineSp (δ : Char) (ind d : Chars) : Chars :=
  ind ++ returnMarker δ ++ [' '] ++ d ++ ['\n']

/-- A line of the form `IND:return: DESC`. -/
def retLineCo (δ : Char) (ind d : Chars) : Chars :=
  ind ++ returnMarker δ ++ [':', ' '] ++ d ++ ['\n']

/-- A line of the form `IND:returns DESC`. -/
def retsLineSp (δ : Char) (ind d : Chars) : Chars :=
  ind ++ returnMarker δ ++ ['s', ' '] ++ d ++ ['\n']

/-- A line of the form `IND:returns: DESC`. -/
def retsLineCo (δ : Char) (ind d : Chars) : Chars :=
  ind ++ returnMarker δ ++ ['s', ':', ' '] ++ d ++ ['\n']

/-- A line of the form `IND:raise DESC`. -/
def raiseLineSp (δ : Char) (ind d : Chars) : Chars :=
  ind ++ raisesMarker δ ++ [' '] ++ d ++ ['\n']

/-- A line of the form `IND:raises DESC`. -/
def raisesLineSp (δ : Char) (ind d : Chars) : Chars :=
  ind ++ raisesMarker δ ++ ['s', ' '] ++ d ++ ['\n']

/-- A line of the form `IND:raised DESC`. -/
def raisedLineSp (δ : Char) (ind d : Chars) : Chars :=
  ind ++ raisesMarker δ ++ ['d', ' '] ++ d ++ ['\n']

/-- Claim C8: for every fixed indentation and description text, each of the
four return-keyword spellings (`return` and `returns`, each with or without
a trailing colon) produces identical emitted output, and each of the three
raises-keyword spellings (`raise`, `raises`, `raised`) produces identical
emitted output; this holds for both lead characters and every
error-policy configuration. -/
theorem C8_keyword_spellings (δ : Char) (hδ : δ = ':' ∨ δ = '@')
    (r w f : Bool) (k : Nat) (d : Chars) (hnl : '\n' ∉ d) :
    (parse ⟨r, w, δ, f⟩ [retLineSp δ (List.replicate (k + 1) ' ') d]
       = parse ⟨r, w, δ, f⟩ [retLineCo δ (List.replicate (k + 1) ' ') d]
     ∧ parse ⟨r, w, δ, f⟩ [retLineCo δ (List.replicate (k + 1) ' ') d]
       = parse ⟨r, w, δ, f⟩ [retsLineSp δ (List.replicate (k + 1) ' ') d]
     ∧ parse ⟨r, w, δ, f⟩ [retsLineSp δ (List.replicate (k + 1) ' ') d]
       = parse ⟨r, w, δ, f⟩ [retsLineCo δ (List.replicate (k + 1) ' ') d])
    ∧ (parse ⟨r, w, δ, f⟩ [raiseLineSp δ (List.replicate (k + 1) ' ') d]
       = parse ⟨r, w, δ, f⟩ [raisesLineSp δ (List.replicate (k + 1) ' ') d]
     ∧ parse ⟨r, w, δ, f⟩ [raisesLineSp δ (List.replicate (k + 1) ' ') d]
       = parse ⟨r, w, δ, f⟩ [raisedLineSp δ (List.replicate (k + 1) ' ') d]) := by
  have hδ' := delim_ne_space hδ
  have hSp : retLineSp δ (List.replicate (k + 1) ' ') d =
      List.replicate (k + 1) ' '
        ++ δ :: ('r' :: 'e' :: 't' :: 'u' :: 'r' :: 'n' :: (' ' :: (d ++ ['\n']))) := by
    simp [retLineSp, returnMarker]
  have hCo : retLineCo δ (List.replicate (k + 1) ' ') d =
      List.replicate (k + 1) ' '
        ++ δ :: ('r' :: 'e' :: 't' :: 'u' :: 'r' :: 'n' :: (':' :: ' ' :: (d ++ ['\n']))) := by
    simp [retLineCo, returnMarker]
  have hsSp : retsLineSp δ (List.replicate (k + 1) ' ') d =
      List.replicate (k + 1) ' '
        ++ δ :: ('r' :: 'e' :: 't' :: 'u' :: 'r' :: 'n' :: ('s' :: ' ' :: (d ++ ['\n']))) := by
    simp [retsLineSp, returnMarker]
  have hsCo : retsLineCo δ (List.replicate (k + 1) ' ') d =
      List.replicate (k + 1) ' '
        ++ δ :: ('r' :: 'e' :: 't' :: 'u' :: 'r' :: 'n' :: ('s' :: ':' :: ' ' :: (d ++ ['\n']))) := by
    simp [retsLineCo, returnMarker]
  have hrA : raiseLineSp δ (List.replicate (k + 1) ' ') d =
      List.replicate (k + 1) ' '
        ++ δ :: ('r' :: 'a' :: 'i' :: 's' :: 'e' :: (' ' :: (d ++ ['\n']))) := by
    simp [raiseLineSp, raisesMarker]
  have hrB : raisesLineSp δ (List.replicate (k + 1) ' ') d =
      List.replicate (k + 1) ' '
        ++ δ :: ('r' :: 'a' :: 'i' :: 's' :: 'e' :: ('s' :: ' ' :: (d ++ ['\n']))) := by
    simp [raisesLineSp, raisesMarker]
  have hrC : raisedLineSp δ (List.replicate (k + 1) ' ') d =
      List.replicate (k + 1) ' '
        ++ δ :: ('r' :: 'a' :: 'i' :: 's' :: 'e' :: ('d' :: ' ' :: (d ++ ['\n']))) := by
    simp [raisedLineSp, raisesMarker]
  refine ⟨⟨?_, ?_, ?_⟩, ?_, ?_⟩
  · rw [hSp, hCo, parse_single_retline r w f δ hδ' k _,
        parse_single_retline r w f δ hδ' k _]
    simp [optCharIn, sepChars, chopNL_concat, chopNL_cons_concat, stripL_cons_space]
  · rw [hCo, hsSp, parse_single_retline r w f δ hδ' k _,
        parse_single_retline r w f δ hδ' k _]
    simp [optCharIn, sepChars, chopNL_concat, chopNL_cons_concat, stripL_cons_space]
  · rw [hsSp, hsCo, parse_single_retline r w f δ hδ' k _,
        parse_single_retline r w f δ hδ' k _]
    simp [optCharIn, sepChars, chopNL_concat, chopNL_cons_concat, stripL_cons_space]
  · rw [hrA, hrB, parse_single_raisesline r w f δ hδ' k _,
        parse_single_raisesline r w f δ hδ' k _]
    simp [optCharIn, sepChars, chopNL_concat, chopNL_cons_concat]
  · rw [hrB, hrC, parse_single_raisesline r w f δ hδ' k _,
        parse_single_raisesline r w f δ hδ' k _]
    simp [optCharIn, sepChars, chopNL_concat, chopNL_cons_concat]

/-- Witness for C8 at a concrete input: lead character `:`, indentation of
two spaces, description `a number between 1 and 10`. -/
theorem C8_keyword_spellings_witness :
    (parse ⟨true, false, ':', false⟩ [retLineSp ':' (List.replicate 2 ' ') "a number between 1 and 10".toList]
       = parse ⟨true, false, ':', false⟩ [retLineCo ':' (List.replicate 2 ' ') "a number between 1 and 10".toList]
     ∧ parse ⟨true, false, ':', false⟩ [retLineCo ':' (List.replicate 2 ' ') "a number between 1 and 10".toList]
       = parse ⟨true, false, ':', false⟩ [retsLineSp ':' (List.replicate 2 ' ') "a number between 1 and 10".toList]
     ∧ parse ⟨true, false, ':', false⟩ [retsLineSp ':' (List.replicate 2 ' ') "a number between 1 and 10".toList]
       = parse ⟨true, false, ':', false⟩ [retsLineCo ':' (List.replicate 2 ' ') "a number between 1 and 10".toList])
    ∧ (parse ⟨true, false, ':', false⟩ [raiseLineSp ':' (List.replicate 2 ' ') "a number between 1 and 10".toList]
       = parse ⟨true, false, ':', false⟩ [raisesLineSp ':' (List.replicate 2 ' ') "a number between 1 and 10".toList]
     ∧ parse ⟨true, false, ':', false⟩ [raisesLineSp ':' (List.replicate 2 ' ') "a number between 1 and 10".toList]
       = parse ⟨true, false, ':', false⟩ [raisedLineSp ':' (List.replicate 2 ' ') "a number between 1 and 10".toList]) :=
  C8_keyword_spellings ':' (Or.inl rfl) true false false 1
    "a number between 1 and 10".toList (by decide)

/-- Claim C9: constructing the recognizer configuration with any lead
character other than `:` or `@` fails at construction time with a
`ValueError`, and for each of the two accepted characters construction
succeeds and yields the five marker strings for that character. -/
theorem C9_parseinfo_construction :
    (∀ c : Char, c ≠ ':' → c ≠ '@' → ParseInfo.init c = .error .valueError)
    ∧ ParseInfo.init ':' =
        .ok ⟨[":param".toList, ":type".toList, ":return".toList,
              ":rtype".toList, ":raises".toList]⟩
    ∧ ParseInfo.init '@' =
        .ok ⟨["@param".toList, "@type".toList, "@return".toList,
              "@rtype".toList, "@raises".toList]⟩ := by
  refine ⟨?_, by rfl, by rfl⟩
  intro c h1 h2
  simp [ParseInfo.init, h1, h2]

/-- Witness for C9: the lead character `x` is rejected with a `ValueError`. -/
theorem C9_parseinfo_construction_witness :
    ParseInfo.init 'x' = .error .valueError :=
  C9_parseinfo_construction.1 'x' (by decide) (by decide)

/-- Claim C1 is a code bug: on the claim's own example (a `:param` line
immediately followed by its matching `:type` line) the rewriter emits
`(<b></i>String</i></b>): ` — an unbalanced bold-open/italic-close tag pair —
instead of the ` (<i>String</i>): ` markup documented in the class docstring
of `PdocPostProd` and promised by the claim. This theorem evaluates the
rewriter at that input: the first conjunct gives the exact (buggy) output and
the second that the claimed markup does not occur in it. -/
theorem C1_param_type_markup_bug :
    parse ⟨true, false, ':', false⟩
      ["  :param tableName: name of new table\n".toList,
       "  :type tableName: String\n".toList] =
      ("  <b>tableName</b> (<b></i>String</i></b>): name of new table</br>".toList, none)
    ∧ occursIn "<b>tableName</b> (<i>String</i>): name of new table".toList
        ("  <b>tableName</b> (<b></i>String</i></b>): name of new table</br>".toList)
      = false := by
  constructor
  · decide
  · decide

theorem splitInd_eq_some {line i rest : Chars} (h : splitInd line = some (i, rest)) :
    (line.takeWhile (fun c => c == ' ')).isEmpty = false
    ∧ i = line.takeWhile (fun c => c == ' ')
    ∧ rest = line.dropWhile (fun c => c == ' ') := by
  unfold splitInd at h
  by_cases he : (line.takeWhile (fun c => c == ' ')).isEmpty = true
  · simp [he] at h
  · simp only [he, if_false, Bool.false_eq_true, Option.some_inj] at h
    exact ⟨by simpa using he, (Prod.mk.inj h.symm).1, (Prod.mk.inj h.symm).2⟩

theorem matchParamType_inv {m line : Chars} {ind nm ds : Chars}
    (h : matchParamType m line = some (ind, nm, ds)) :
    ∃ r1, line.dropWhile (fun c => c == ' ') = m ++ r1
      ∧ (line.takeWhile (fun c => c == ' ')).isEmpty = false
      ∧ ind = line.takeWhile (fun c => c == ' ') := by
  unfold matchParamType at h
  split at h
  · simp at h
  · rename_i i rest hs
    obtain ⟨hne, hi, hrest⟩ := splitInd_eq_some hs
    split at h
    · simp at h
    · rename_i r1 hchop
      split at h
      · simp only [Option.some.injEq, Prod.mk.injEq] at h
        refine ⟨r1, ?_, hne, ?_⟩
        · rw [← hrest]; exact chopLit_eq_append hchop
        · rw [← h.1, hi]
      · simp at h

/-- Claim C7: a type directive line encountered while no parameter spec is
open raises `NoParamError` in raise mode; in non-raise mode the check
returns NOT_HANDLED with the state (in particular the output) unchanged, so
the type line's content is never emitted as a parameter clause. The final
conjunct exhibits a whole raise-mode parse aborting with `NoParamError`. -/
theorem C7_type_without_param (cfg : Config) (line : Chars) (st : PState)
    (ind tn td : Chars)
    (hp : st.parm = none)
    (hm : matchParamType (typeMarker cfg.delimiter_char) line = some (ind, tn, td)) :
    (cfg.raise_errors = true → check_type_spec cfg line st = .error (st, .noParamError))
    ∧ (cfg.raise_errors = false → check_type_spec cfg line st = .ok (false, st))
    ∧ parse ⟨true, false, ':', false⟩ ["  :type tableName: String\n".toList]
        = ([], some .noParamError) := by
  refine ⟨?_, ?_, by decide⟩ <;> intro h <;>
    simp [check_type_spec, hm, hp, error_notify, h]

/-- Witness for C7 at the test suite's `content_no_param` directive line. -/
theorem C7_type_without_param_witness :
    check_type_spec ⟨true, false, ':', false⟩ "  :type tableName: String\n".toList
        initState = .error (initState, .noParamError) :=
  (C7_type_without_param ⟨true, false, ':', false⟩ "  :type tableName: String\n".toList
    initState "  ".toList " tableName".toList " String".toList rfl (by decide)).1 rfl

/-- Claim C10: in non-raise mode, a type directive whose target name differs
from the open parameter's name leaves the parameter spec open and appends
the entire raw type line (markup included), joined by a space, to the open
parameter's accumulated description; no exception escapes and nothing is
written to the output. -/
theorem C10_mismatch_continuation (cfg : Config) (st : PState) (line : Chars)
    (ind tn td n dsc : Chars)
    (hre : cfg.raise_errors = false)
    (hp : st.parm = some (n, dsc))
    (hm : matchParamType (typeMarker cfg.delimiter_char) line = some (ind, tn, td))
    (hne : stripL tn ≠ n) :
    process_line cfg line st = .ok ⟨some (n, dsc ++ ' ' :: line), st.ret, st.out⟩ := by
  obtain ⟨r1, hdw, hemp, hind⟩ := matchParamType_inv hm
  have hsplit : splitInd line =
      some (line.takeWhile (fun c => c == ' '), typeMarker cfg.delimiter_char ++ r1) := by
    unfold splitInd
    simp [hemp, hdw]
  have hpm : matchParamType (paramMarker cfg.delimiter_char) line = none := by
    simp [matchParamType, hsplit, paramMarker, typeMarker, chopLit]
  have hret : matchKeyTail (returnMarker cfg.delimiter_char) ['s'] line = none := by
    simp [matchKeyTail, hsplit, returnMarker, typeMarker, chopLit]
  have hrt : matchKeyTail (rtypeMarker cfg.delimiter_char) [] line = none := by
    simp [matchKeyTail, hsplit, rtypeMarker, typeMarker, chopLit]
  have hra : matchKeyTail (raisesMarker cfg.delimiter_char) ['s', '|', 'd'] line = none := by
    simp [matchKeyTail, hsplit, raisesMarker, typeMarker, chopLit]
  simp [process_line, check_param_spec, check_type_spec, check_return_spec,
        check_rtype_spec, check_raises_spec, hpm, hm, hret, hrt, hra, hp, hne,
        error_notify, hre]

/-- Witness for C10 at the test suite's mismatch example (`:param tableName`
followed by `:type bluebell`), in non-raise mode. -/
theorem C10_mismatch_continuation_witness :
    process_line ⟨false, false, ':', false⟩ "  :type bluebell: String\n".toList
        ⟨some ("tableName".toList, "name of new table".toList), none, []⟩ =
      .ok ⟨some ("tableName".toList,
                 "name of new table".toList ++ ' ' :: "  :type bluebell: String\n".toList),
           none, []⟩ :=
  C10_mismatch_continuation ⟨false, false, ':', false⟩
    ⟨some ("tableName".toList, "name of new table".toList), none, []⟩
    "  :type bluebell: String\n".toList
    "  ".toList " bluebell".toList " String".toList
    "tableName".toList "name of new table".toList rfl rfl (by decide) (by decide)

/-! Further evaluation helpers for the finalization and continuation paths. -/

theorem finalize_parm_silent (cfg : Config) (st : PState) (n dsc : Chars)
    (hf : cfg.force_type_spec = false) (hp : st.parm = some (n, dsc)) :
    finalize cfg st = .ok ⟨none, st.ret,
      st.out ++ rstripL dsc ++ (if endsWith dsc line_sep then [] else line_sep)⟩ := by
  simp [finalize, hp, finish_parameter_spec, hf]
  split <;> simp

theorem finalize_parm_forced (cfg : Config) (st : PState) (n dsc : Chars)
    (hf : cfg.force_type_spec = true) (hre : cfg.raise_errors = true)
    (hp : st.parm = some (n, dsc)) :
    finalize cfg st =
      .error (⟨some (n, dsc), st.ret, st.out ++ rstripL dsc⟩, .noTypeError) := by
  simp [finalize, hp, finish_parameter_spec, hf, error_notify, hre]

theorem process_line_continuation (cfg : Config) (st : PState) (line n0 d0 : Chars)
    (h1 : matchParamType (paramMarker cfg.delimiter_char) line = none)
    (h2 : matchParamType (typeMarker cfg.delimiter_char) line = none)
    (h3 : matchKeyTail (returnMarker cfg.delimiter_char) ['s'] line = none)
    (h4 : matchKeyTail (rtypeMarker cfg.delimiter_char) [] line = none)
    (h5 : matchKeyTail (raisesMarker cfg.delimiter_char) ['s', '|', 'd'] line = none)
    (hp : st.parm = some (n0, d0)) :
    process_line cfg line st = .ok ⟨some (n0, d0 ++ ' ' :: line), st.ret, st.out⟩ := by
  simp [process_line, check_param_spec, check_type_spec, check_return_spec,
        check_rtype_spec, check_raises_spec, h1, h2, h3, h4, h5, hp]

theorem process_line_paramline (r w f : Bool) (δ : Char) (hδ : (δ == ' ') = false)
    (k : Nat) (n dsc : Chars) (st : PState)
    (hp : st.parm = none) (hn : ∀ c ∈ n, (c == ':') = false) :
    process_line ⟨r, w, δ, f⟩
      (List.replicate (k + 1) ' '
        ++ δ :: ('p' :: 'a' :: 'r' :: 'a' :: 'm' :: (n ++ ':' :: (dsc ++ ['\n'])))) st =
    .ok ⟨some (stripL n, stripL dsc), st.ret,
         st.out ++ List.replicate (k + 1) ' ' ++ ['<', 'b', '>'] ++ stripL n
           ++ ['<', '/', 'b', '>', ' ']⟩ := by
  have hsplit := splitInd_repl k δ
    ('p' :: 'a' :: 'r' :: 'a' :: 'm' :: (n ++ ':' :: (dsc ++ ['\n']))) hδ
  have hdwc := dropWhile_middle (fun c => !(c == ':')) n ':' (dsc ++ ['\n'])
    (fun a ha => by simp [hn a ha]) (by simp)
  have htwc := takeWhile_middle (fun c => !(c == ':')) n ':' (dsc ++ ['\n'])
    (fun a ha => by simp [hn a ha]) (by simp)
  simp [process_line, check_param_spec, matchParamType, hsplit, paramMarker,
        chopLit, hdwc, htwc, chopNL_concat, hp]

theorem process_line_typeline_match (r w f : Bool) (δ : Char) (hδ : (δ == ' ') = false)
    (k : Nat) (tn td : Chars) (st : PState) (pn pd : Chars)
    (hp : st.parm = some (pn, pd)) (hn : ∀ c ∈ tn, (c == ':') = false)
    (heq : stripL tn = pn) :
    process_line ⟨r, w, δ, f⟩
      (List.replicate (k + 1) ' '
        ++ δ :: ('t' :: 'y' :: 'p' :: 'e' :: (tn ++ ':' :: (td ++ ['\n'])))) st =
    .ok ⟨none, st.ret,
         st.out ++ ['(', '<', 'b', '>', '<', '/', 'i', '>'] ++ stripL td
           ++ ['<', '/', 'i', '>', '<', '/', 'b', '>', ')', ':', ' '] ++ pd
           ++ (if endsWith pd line_sep then [] else line_sep)⟩ := by
  have hsplit := splitInd_repl k δ
    ('t' :: 'y' :: 'p' :: 'e' :: (tn ++ ':' :: (td ++ ['\n']))) hδ
  have hdwc := dropWhile_middle (fun c => !(c == ':')) tn ':' (td ++ ['\n'])
    (fun a ha => by simp [hn a ha]) (by simp)
  have htwc := takeWhile_middle (fun c => !(c == ':')) tn ':' (td ++ ['\n'])
    (fun a ha => by simp [hn a ha]) (by simp)
  simp [process_line, check_param_spec, check_type_spec, matchParamType, hsplit,
        paramMarker, typeMarker, chopLit, hdwc, htwc, chopNL_concat, hp, heq,
        finish_parameter_spec]
  split <;> simp

theorem process_line_rtypeline (r w : Bool) (δ : Char) (hδ : (δ == ' ') = false)
    (k : Nat) (tail : Chars) (st : PState) (pn pd : Chars)
    (hp : st.parm = some (pn, pd)) :
    process_line ⟨r, w, δ, false⟩
      (List.replicate (k + 1) ' ' ++ δ :: ('r' :: 't' :: 'y' :: 'p' :: 'e' :: tail)) st =
    .ok ⟨none, st.ret,
         st.out ++ (if endsWith pd line_sep then [] else line_sep)
           ++ List.replicate (k + 1) ' ' ++ "<b>return type:</b> ".toList
           ++ stripL (chopNL (optCharIn sepChars (optCharIn [] tail)))
           ++ line_sep⟩ := by
  have hsplit := splitInd_repl k δ ('r' :: 't' :: 'y' :: 'p' :: 'e' :: tail) hδ
  simp [process_line, check_param_spec, check_type_spec, check_return_spec,
        check_rtype_spec, matchParamType, matchKeyTail, hsplit, paramMarker,
        typeMarker, returnMarker, rtypeMarker, chopLit, hp, finish_parameter_spec]
  split <;> simp


/-- Counterexample to claim C2 as stated: `:param a: zzqq` finalized by the
directive transition to `:rtype: int` loses the accumulated description
`zzqq` entirely — only the opening markup and the closing `</br>` marker are
emitted, so the description is not "emitted to the output" at the
transition. -/
theorem C2_transition_drops_description_cex :
    parse ⟨true, false, ':', false⟩
      ["  :param a: zzqq\n".toList, "  :rtype: int\n".toList] =
      ("  <b>a</b> </br>  <b>return type:</b> int</br>".toList, none)
    ∧ occursIn "zzqq".toList
        "  <b>a</b> </br>  <b>return type:</b> int</br>".toList = false := by
  constructor
  · decide
  · decide

/-- Claim C2 (amended): when an open parameter spec is finalized at a
directive transition (with the type-requirement policy off), only the
closing line-separator marker is emitted, and it is omitted exactly when the
accumulated description already ends with that marker; the accumulated
description itself is not written by the close. -/
theorem C2_transition_close (cfg : Config) (st : PState) (n dsc : Chars)
    (hf : cfg.force_type_spec = false) (hp : st.parm = some (n, dsc)) :
    finish_parameter_spec cfg false st =
      .ok ⟨none, st.ret, st.out ++ (if endsWith dsc line_sep then [] else line_sep)⟩ := by
  simp [finish_parameter_spec, hp, hf]
  split <;> simp

/-- Witness for the amended C2 at a concrete open parameter. -/
theorem C2_transition_close_witness :
    finish_parameter_spec ⟨true, false, ':', false⟩ false
        ⟨some ("a".toList, "zzqq".toList), none, []⟩ =
      .ok ⟨none, none, [] ++ (if endsWith "zzqq".toList line_sep then [] else line_sep)⟩ :=
  C2_transition_close ⟨true, false, ':', false⟩
    ⟨some ("a".toList, "zzqq".toList), none, []⟩ "a".toList "zzqq".toList rfl rfl

/-- Counterexample to claim C3 as stated: a whitespace-only line, matched by
no directive recognizer while no spec is open, is dropped from the output
instead of being passed through unchanged. -/
theorem C3_blank_line_dropped_cex :
    parse ⟨true, false, ':', false⟩ ["   \n".toList] = ([], none)
    ∧ "   \n".toList ≠ ([] : Chars) := by
  constructor
  · decide
  · decide

/-- Claim C3 (amended): a line matching none of the five directive
recognizers, while no parameter spec and no return spec is open, is passed
through to the output unchanged — with a line-break token appended exactly
when it lacks a trailing newline — provided it is not blank; a
whitespace-only line is dropped from the output entirely. -/
theorem C3_passthrough (cfg : Config) (line : Chars) (st : PState)
    (h1 : matchParamType (paramMarker cfg.delimiter_char) line = none)
    (h2 : matchParamType (typeMarker cfg.delimiter_char) line = none)
    (h3 : matchKeyTail (returnMarker cfg.delimiter_char) ['s'] line = none)
    (h4 : matchKeyTail (rtypeMarker cfg.delimiter_char) [] line = none)
    (h5 : matchKeyTail (raisesMarker cfg.delimiter_char) ['s', '|', 'd'] line = none)
    (hp : st.parm = none) (hr : st.ret = none) :
    (isBlankLine line = true → process_line cfg line st = .ok st)
    ∧ (isBlankLine line = false →
        process_line cfg line st =
          .ok ⟨none, none, st.out ++ line
                ++ (if line.getLast? = some '\n' then [] else line_sep)⟩) := by
  constructor <;> intro hb <;>
    simp [process_line, check_param_spec, check_type_spec, check_return_spec,
          check_rtype_spec, check_raises_spec, h1, h2, h3, h4, h5, hp, hr, hb]

/-- Witness for the amended C3: an ordinary text line passes through
verbatim. -/
theorem C3_passthrough_witness :
    process_line ⟨true, false, ':', false⟩ "Blue is green\n".toList initState =
      .ok ⟨none, none, "Blue is green\n".toList⟩ := by
  have h := (C3_passthrough ⟨true, false, ':', false⟩ "Blue is green\n".toList initState
    (by decide) (by decide) (by decide) (by decide) (by decide) rfl rfl).2 (by decide)
  simpa using h

/-- Counterexample to claim C4 as stated: when a parameter spec and a return
spec are both still open at end of stream (`:return: zz` followed by
`:param a: d`), only the parameter is finalized and flushed; the open return
spec's accumulated description `zz` is silently dropped. -/
theorem C4_open_return_dropped_cex :
    parse ⟨true, false, ':', false⟩
      ["  :return: zz\n".toList, "  :param a: d\n".toList] =
      ("  <b>returns:</b>   <b>a</b> d</br>".toList, none)
    ∧ occursIn "zz".toList "  <b>returns:</b>   <b>a</b> d</br>".toList = false := by
  constructor
  · decide
  · decide

/-- Claim C4 (amended): at end of the input stream a still-open parameter
spec is finalized and its accumulated description flushed; a still-open
return spec is finalized and flushed only when no parameter spec is open
(when both are open, the return spec is dropped); and this end-of-stream
finalization runs on every exit path of the scan loop, including exits by a
raised error. -/
theorem C4_eos_finalization (cfg : Config) :
    (∀ st : PState, ∀ n dsc : Chars, cfg.force_type_spec = false →
        st.parm = some (n, dsc) →
        finalize cfg st = .ok ⟨none, st.ret,
          st.out ++ rstripL dsc ++ (if endsWith dsc line_sep then [] else line_sep)⟩)
    ∧ (∀ st : PState, ∀ dsc : Chars, st.parm = none → st.ret = some dsc →
        finalize cfg st = .ok ⟨none, none,
          st.out ++ rstripL dsc ++ (if endsWith dsc line_sep then [] else line_sep)⟩)
    ∧ (∀ lines : List Chars, ∀ st : PState, ∀ e : PyError, ∀ st1 : PState,
        scan_lines cfg lines initState = .error (st, e) →
        finalize cfg st = .ok st1 →
        parse cfg lines = (st1.out, some e)) := by
  refine ⟨?_, ?_, ?_⟩
  · intro st n dsc hf hp
    exact finalize_parm_silent cfg st n dsc hf hp
  · intro st dsc hp hr
    exact finalize_ret_open cfg st dsc hp hr
  · intro lines st e st1 hscan hfin
    simp [parse, hscan, hfin]

/-- Witness for the amended C4: a raise-mode run that aborts on a
parameter/type name mismatch still flushes the open parameter's description
on the way out. -/
theorem C4_eos_finalization_witness :
    parse ⟨true, false, ':', false⟩
      ["  :param a: d\n".toList, "  :type b: int\n".toList] =
      ("  <b>a</b> d</br>".toList, some .paramTypeMismatch) :=
  (C4_eos_finalization ⟨true, false, ':', false⟩).2.2
    ["  :param a: d\n".toList, "  :type b: int\n".toList]
    ⟨some ("a".toList, "d".toList), none, "  <b>a</b> ".toList⟩
    .paramTypeMismatch
    ⟨none, none, "  <b>a</b> d</br>".toList⟩
    rfl rfl



/-- Claim C5 (amended): a parameter directive with no following type
directive (1) raises `NoTypeError` when `force_type_spec` is on together
with raise mode — the accumulated description is still flushed first by the
guaranteed end-of-stream finalization; (2) with `force_type_spec` off it
closes silently at end-of-stream with no type clause; (3) a blank
(whitespace-only) line does NOT close the open parameter spec — it is
accumulated as a continuation line, in every configuration; (4) with
`force_type_spec` off the spec closes silently at the next directive (shown
for an `:rtype` directive), again emitting no type clause. -/
theorem C5_param_without_type (δ : Char) (hδ : δ = ':' ∨ δ = '@') (r w : Bool) :
    (∀ (k : Nat) (n dsc : Chars), (∀ c ∈ n, (c == ':') = false) →
      parse ⟨true, w, δ, true⟩
        [List.replicate (k + 1) ' '
          ++ δ :: ('p' :: 'a' :: 'r' :: 'a' :: 'm' :: (n ++ ':' :: (dsc ++ ['\n'])))] =
        (List.replicate (k + 1) ' ' ++ ['<', 'b', '>'] ++ stripL n
          ++ ['<', '/', 'b', '>', ' '] ++ rstripL (stripL dsc), some .noTypeError))
    ∧ (∀ (k : Nat) (n dsc : Chars), (∀ c ∈ n, (c == ':') = false) →
      parse ⟨r, w, δ, false⟩
        [List.replicate (k + 1) ' '
          ++ δ :: ('p' :: 'a' :: 'r' :: 'a' :: 'm' :: (n ++ ':' :: (dsc ++ ['\n'])))] =
        (List.replicate (k + 1) ' ' ++ ['<', 'b', '>'] ++ stripL n
          ++ ['<', '/', 'b', '>', ' '] ++ rstripL (stripL dsc)
          ++ (if endsWith (stripL dsc) line_sep then [] else line_sep), none))
    ∧ (∀ (r1 w1 f1 : Bool) (m : Nat) (st : PState) (n0 d0 : Chars),
        st.parm = some (n0, d0) →
        process_line ⟨r1, w1, δ, f1⟩ (List.replicate m ' ' ++ ['\n']) st =
          .ok ⟨some (n0, d0 ++ ' ' :: (List.replicate m ' ' ++ ['\n'])), st.ret, st.out⟩)
    ∧ (∀ (k : Nat) (n dsc : Chars) (j : Nat) (rd : Chars),
        (∀ c ∈ n, (c == ':') = false) →
      parse ⟨r, w, δ, false⟩
        [List.replicate (k + 1) ' '
          ++ δ :: ('p' :: 'a' :: 'r' :: 'a' :: 'm' :: (n ++ ':' :: (dsc ++ ['\n']))),
         List.replicate (j + 1) ' '
          ++ δ :: ('r' :: 't' :: 'y' :: 'p' :: 'e' :: (':' :: ' ' :: (rd ++ ['\n'])))] =
        (List.replicate (k + 1) ' ' ++ ['<', 'b', '>'] ++ stripL n
          ++ ['<', '/', 'b', '>', ' ']
          ++ (if endsWith (stripL dsc) line_sep then [] else line_sep)
          ++ List.replicate (j + 1) ' ' ++ "<b>return type:</b> ".toList
          ++ stripL rd ++ line_sep, none)) := by
  have hδ' := delim_ne_space hδ
  refine ⟨?_, ?_, ?_, ?_⟩
  · intro k n dsc hn
    have s1 := process_line_paramline true w true δ hδ' k n dsc initState rfl hn
    simp only [initState, List.nil_append] at s1
    simp only [parse, scan_lines, initState, s1]
    simp [finalize, finish_parameter_spec, error_notify]
  · intro k n dsc hn
    have s1 := process_line_paramline r w false δ hδ' k n dsc initState rfl hn
    simp only [initState, List.nil_append] at s1
    simp only [parse, scan_lines, initState, s1]
    simp [finalize, finish_parameter_spec, error_notify]
    split <;> simp
  · intro r1 w1 f1 m st n0 d0 hp
    have hchop : ∀ (c c2 : Char) (t : Chars), chopLit (c :: c2 :: t) ['\n'] = none := by
      intro c c2 t
      simp [chopLit]
    have hblankK : ∀ marker letters : Chars, ∀ c c2 : Char, ∀ t : Chars,
        marker = c :: c2 :: t →
        matchKeyTail marker letters (List.replicate m ' ' ++ ['\n']) = none := by
      intro marker letters c c2 t hmk
      cases m with
      | zero =>
        simp [matchKeyTail, splitInd, List.takeWhile]
      | succ m' =>
        have hsplit := splitInd_repl m' '\n' [] (by decide)
        simp only [List.replicate, List.cons_append] at hsplit ⊢
        simp [matchKeyTail, hsplit, hmk, hchop]
    have hblankP : ∀ marker : Chars, ∀ c c2 : Char, ∀ t : Chars,
        marker = c :: c2 :: t →
        matchParamType marker (List.replicate m ' ' ++ ['\n']) = none := by
      intro marker c c2 t hmk
      cases m with
      | zero =>
        simp [matchParamType, splitInd, List.takeWhile]
      | succ m' =>
        have hsplit := splitInd_repl m' '\n' [] (by decide)
        simp only [List.replicate, List.cons_append] at hsplit ⊢
        simp [matchParamType, hsplit, hmk, hchop]
    exact process_line_continuation ⟨r1, w1, δ, f1⟩ st _ n0 d0
      (hblankP _ _ _ _ rfl) (hblankP _ _ _ _ rfl) (hblankK _ _ _ _ _ rfl)
      (hblankK _ _ _ _ _ rfl) (hblankK _ _ _ _ _ rfl) hp
  · intro k n dsc j rd hn
    have s1 := process_line_paramline r w false δ hδ' k n dsc initState rfl hn
    simp only [initState, List.nil_append] at s1
    have s2 := process_line_rtypeline r w δ hδ' j (':' :: ' ' :: (rd ++ ['\n']))
      ⟨some (stripL n, stripL dsc), none,
       List.replicate (k + 1) ' ' ++ ['<', 'b', '>'] ++ stripL n
         ++ ['<', '/', 'b', '>', ' ']⟩
      (stripL n) (stripL dsc) rfl
    simp only [List.nil_append] at s2
    simp only [parse, scan_lines, initState, s1, s2]
    simp [finalize, optCharIn, sepChars, chopNL_cons_concat, stripL_cons_space]

/-- Counterexample to claim C5 as stated: after `:param a: d` followed by a
blank line, the parameter spec is still open (`curr_parm_match` is not
`None`, with the blank line accumulated into the description), and a later
`:type a: int` line still completes it into a full type clause — so the
parameter spec does not close at a blank line. -/
theorem C5_blank_does_not_close_cex :
    scan_lines ⟨true, false, ':', false⟩
        ["  :param a: d\n".toList, "   \n".toList] initState =
      .ok ⟨some ("a".toList, "d    \n".toList), none, "  <b>a</b> ".toList⟩
    ∧ some ("a".toList, "d    \n".toList) ≠ (none : Option (Chars × Chars))
    ∧ parse ⟨true, false, ':', false⟩
        ["  :param a: d\n".toList, "   \n".toList, "  :type a: int\n".toList] =
      ("  <b>a</b> (<b></i>int</i></b>): d    \n</br>".toList, none) := by
  refine ⟨by rfl, by decide, by decide⟩

/-- Witness for the amended C5, part (1): a forced-type raise-mode parse of
a lone `:param` line ends with `NoTypeError` after flushing the
description. -/
theorem C5_param_without_type_witness :
    parse ⟨true, false, ':', true⟩
      [List.replicate 3 ' '
        ++ ':' :: ('p' :: 'a' :: 'r' :: 'a' :: 'm'
          :: (" tableName".toList ++ ':' :: (" name of new table".toList ++ ['\n'])))] =
      (List.replicate 3 ' ' ++ ['<', 'b', '>'] ++ stripL " tableName".toList
        ++ ['<', '/', 'b', '>', ' '] ++ rstripL (stripL " name of new table".toList),
       some .noTypeError) :=
  (C5_param_without_type ':' (Or.inl rfl) true false).1 2
    " tableName".toList " name of new table".toList (by decide)

/-- Counterexample to claim C6 as stated: splitting the description
`first second` over a continuation line yields a different final output
from the single-line directive — the continuation line is appended raw
(leading indentation and trailing newline included), not
whitespace-normalized. -/
theorem C6_multiline_differs_cex :
    parse ⟨true, false, ':', false⟩
      ["  :param a: first\n".toList, "    second\n".toList, "  :type a: int\n".toList] =
      ("  <b>a</b> (<b></i>int</i></b>): first     second\n</br>".toList, none)
    ∧ parse ⟨true, false, ':', false⟩
      ["  :param a: first second\n".toList, "  :type a: int\n".toList] =
      ("  <b>a</b> (<b></i>int</i></b>): first second</br>".toList, none)
    ∧ "  <b>a</b> (<b></i>int</i></b>): first     second\n</br>".toList ≠
      "  <b>a</b> (<b></i>int</i></b>): first second</br>".toList := by
  refine ⟨by decide, by decide, by decide⟩

/-- Claim C6 (amended): for a parameter directive whose description
continues on further lines before the matching type line, accumulation
preserves line order but does not normalize whitespace: each continuation
line is appended verbatim (its leading indentation and trailing newline
included) after a single joining space, and the final output is that of the
single-line case only with `stripL dsc ++ ' ' :: c` in place of the
stripped single-line description. -/
theorem C6_continuation_appended_raw (δ : Char) (hδ : δ = ':' ∨ δ = '@')
    (r w f : Bool) (k : Nat) (n dsc : Chars) (c : Chars) (j : Nat) (td : Chars)
    (hn : ∀ ch ∈ n, (ch == ':') = false)
    (h1 : matchParamType (paramMarker δ) c = none)
    (h2 : matchParamType (typeMarker δ) c = none)
    (h3 : matchKeyTail (returnMarker δ) ['s'] c = none)
    (h4 : matchKeyTail (rtypeMarker δ) [] c = none)
    (h5 : matchKeyTail (raisesMarker δ) ['s', '|', 'd'] c = none) :
    parse ⟨r, w, δ, f⟩
      [List.replicate (k + 1) ' '
        ++ δ :: ('p' :: 'a' :: 'r' :: 'a' :: 'm' :: (n ++ ':' :: (dsc ++ ['\n']))),
       c,
       List.replicate (j + 1) ' '
        ++ δ :: ('t' :: 'y' :: 'p' :: 'e' :: (n ++ ':' :: (td ++ ['\n'])))] =
      (List.replicate (k + 1) ' ' ++ ['<', 'b', '>'] ++ stripL n
        ++ ['<', '/', 'b', '>', ' ']
        ++ ['(', '<', 'b', '>', '<', '/', 'i', '>'] ++ stripL td
        ++ ['<', '/', 'i', '>', '<', '/', 'b', '>', ')', ':', ' ']
        ++ (stripL dsc ++ ' ' :: c)
        ++ (if endsWith (stripL dsc ++ ' ' :: c) line_sep then [] else line_sep),
       none) := by
  have hδ' := delim_ne_space hδ
  have s1 := process_line_paramline r w f δ hδ' k n dsc initState rfl hn
  simp only [initState, List.nil_append] at s1
  have s2 := process_line_continuation ⟨r, w, δ, f⟩
    ⟨some (stripL n, stripL dsc), none,
     List.replicate (k + 1) ' ' ++ ['<', 'b', '>'] ++ stripL n
       ++ ['<', '/', 'b', '>', ' ']⟩
    c (stripL n) (stripL dsc) h1 h2 h3 h4 h5 rfl
  simp only [List.nil_append] at s2
  have s3 := process_line_typeline_match r w f δ hδ' j n td
    ⟨some (stripL n, stripL dsc ++ ' ' :: c), none,
     List.replicate (k + 1) ' ' ++ ['<', 'b', '>'] ++ stripL n
       ++ ['<', '/', 'b', '>', ' ']⟩
    (stripL n) (stripL dsc ++ ' ' :: c) rfl hn rfl
  simp only [List.nil_append] at s3
  simp only [parse, scan_lines, initState, s1, s2, s3]
  simp [finalize]


/-- Witness for the amended C6 at the test suite's multi-line example shape. -/
theorem C6_continuation_appended_raw_witness :
    parse ⟨true, false, ':', false⟩
      [List.replicate (1 + 1) ' '
        ++ ':' :: ('p' :: 'a' :: 'r' :: 'a' :: 'm'
          :: (" a".toList ++ ':' :: (" first".toList ++ ['\n']))),
       "    second\n".toList,
       List.replicate (1 + 1) ' '
        ++ ':' :: ('t' :: 'y' :: 'p' :: 'e'
          :: (" a".toList ++ ':' :: (" int".toList ++ ['\n'])))] =
      (List.replicate (1 + 1) ' ' ++ ['<', 'b', '>'] ++ stripL " a".toList
        ++ ['<', '/', 'b', '>', ' ']
        ++ ['(', '<', 'b', '>', '<', '/', 'i', '>'] ++ stripL " int".toList
        ++ ['<', '/', 'i', '>', '<', '/', 'b', '>', ')', ':', ' ']
        ++ (stripL " first".toList ++ ' ' :: "    second\n".toList)
        ++ (if endsWith (stripL " first".toList ++ ' ' :: "    second\n".toList) line_sep
            then [] else line_sep),
       none) :=
  C6_continuation_appended_raw ':' (Or.inl rfl) true false false 1
    " a".toList " first".toList "    second\n".toList 1 " int".toList
    (by decide) (by decide) (by decide) (by decide) (by decide) (by decide)

end Pdoc
